import Mathlib

/-!
Verification of the incremental ID-scan loops of the nbtc-monitor repository.

Two variants of the daily scanner are embedded:

* Variant A (`scraper.py`, the `.last_id` variant): a `for offset in range(500)`
  loop over `get_device_name`, breaking on the first blank probe, persisting
  `current` to `.last_id`, deduplicating names through `known.json`, and
  exiting 77 when new device names were collected (0 otherwise).

* Variant B (`scraper/scraper/nbtc_scraper.py`, the `state.json` variant):
  a `while blanks < BLANK_LIMIT` loop over `fetch`, resetting the blank
  counter on any successfully classified record of the target category,
  persisting `last` to `state.json`, and exiting 1 when new devices were
  collected (0 otherwise).

The HTTP/HTML layer is abstracted into a per-identifier page description
passed in as a function (the "world"); the classification logic applied to
that description is translated from the source.  Fallible Python code is
embedded with `Except`/`Option`: an uncaught Python exception corresponds
to `Except.error`.  Loops are embedded with explicit fuel; the `probed`
field of each loop state is instrumentation recording the identifiers
passed to the fetch routine, most recent first: exactly one identifier is
prepended per probe, and no branch of the translated code reads the field.
-/

/-! ### Variant A: scraper.py (`.last_id` / `known.json`) -/

/-- Outcome of `requests.get` + HTML parse for one page in variant A:
either the request raised (timeout, connection error, ...), or it returned
a page with a status code, a flag for the "Whoops, looks like something
went wrong." marker, and the text of the first `h2` and first `h3`
heading (if any). -/
inductive HttpResult where
  | exn : HttpResult
  | ok (status : Nat) (whoops : Bool) (h2 h3 : Option String) : HttpResult
deriving DecidableEq

/-- The regex test `re.search(r'[ก-๙]', text)`: does the string contain a
character in the Thai block U+0E01 .. U+0E59? -/
def containsThai (s : String) : Bool :=
  s.data.any fun c => 0xE01 ≤ c.toNat && c.toNat ≤ 0xE59

/-- The `for tag in ["h2", "h3"]` search of `get_device_name`: return the
first present heading whose text contains a Thai character. -/
def firstThaiHeading : List (Option String) → Option String
  | [] => none
  | h :: rest =>
    match h with
    | some t => if containsThai t then some t else firstThaiHeading rest
    | none => firstThaiHeading rest

/-- `get_device_name` of scraper.py.  The `requests.get` call is *outside*
any try/except, so a raised request exception propagates to the caller
(`Except.error`).  A non-200 status or the "Whoops" end-of-data marker
yields `None`; otherwise the first Thai `h2`/`h3` heading is returned. -/
def get_device_name : HttpResult → Except Unit (Option String)
  | HttpResult.exn => Except.error ()
  | HttpResult.ok status whoops h2 h3 =>
    if status ≠ 200 then Except.ok none
    else if whoops then Except.ok none
    else Except.ok (firstThaiHeading [h2, h3])

/-- `MAX_PAGES = 500` of scraper.py. -/
def MAX_PAGES : Nat := 500

/-- Mutable state of scraper.py's main loop.  `current` is the resume
cursor, `known` the set of already-seen names (a Python `set`, embedded as
a duplicate-free list), `new_devices` the names collected this run, and
`probed` the instrumentation trace of probed identifiers (most recent
first). -/
structure StateA where
  current : Nat
  known : List String
  new_devices : List String
  probed : List Nat
deriving DecidableEq

/-- The `for offset in range(MAX_PAGES)` loop of scraper.py, recursing on
the remaining iteration count (`fuel`) and carrying `offset`.  Note the
source computes `eq_id = current + offset` with `current` mutated inside
the loop, so probed identifiers are not consecutive.  `Except.error`
is a propagating exception from `get_device_name` (nothing is persisted);
`Except.ok` is normal loop exit (break or range exhaustion). -/
def loopA (w : Nat → HttpResult) (off fuel : Nat) (s : StateA) :
    Except StateA StateA :=
  Nat.rec (motive := fun _ => Nat → StateA → Except StateA StateA)
    (fun _ s => Except.ok s)
    (fun _ ih off s =>
      let eq_id := s.current + off
      let s1 : StateA := { s with probed := eq_id :: s.probed }
      match get_device_name (w eq_id) with
      | Except.error _ => Except.error s1
      | Except.ok none => Except.ok { s1 with current := eq_id }
      | Except.ok (some name) =>
        let s2 : StateA :=
          if name ∈ s1.known then s1
          else { s1 with new_devices := s1.new_devices ++ [name],
                         known := name :: s1.known }
        ih (off+1) { s2 with current := eq_id + 1 })
    fuel off s

/-- One full run of scraper.py: `current = load_int(LAST_FILE, seed)`,
`known = load_known()`, then the scan loop starting at offset 0. -/
def runA (w : Nat → HttpResult) (known0 : List String) (start : Nat) :
    Except StateA StateA :=
  loopA w 0 MAX_PAGES { current := start, known := known0,
                        new_devices := [], probed := [] }

/-- Identifiers passed to `get_device_name` during a run, whether the run
finished normally or died on a propagated exception. -/
def probedOfA : Except StateA StateA → List Nat
  | Except.ok s => s.probed
  | Except.error s => s.probed

/-- The value `save_int(LAST_FILE, current)` persists.  A run that died on
an uncaught exception never reaches `save_int`, hence persists nothing. -/
def savedA : Except StateA StateA → Option Nat
  | Except.ok s => some s.current
  | Except.error _ => none

/-- The exit block of scraper.py: `sys.exit(77)` when `new_devices` is
nonempty, `sys.exit(0)` otherwise. -/
def exitA (s : StateA) : Nat :=
  if s.new_devices ≠ [] then 77 else 0

/-- The notification content of scraper.py: `first = new_devices[0]` is
written to `new_device.txt` and sent via Telegram, and only when
`new_devices` is nonempty; nothing is sent otherwise. -/
def notificationA (s : StateA) : Option String :=
  s.new_devices.head?

/-! ### Variant B: scraper/scraper/nbtc_scraper.py (`state.json`) -/

/-- A matching record assembled by `fetch`. -/
structure Device where
  id : Nat
  brand : String
  model : String
  cert : String
deriving DecidableEq

/-- Outcome of `requests.get` + parse for one page in variant B: either
the request raised, or it returned a page with a status code and the rows
of the `table.table tbody` (each row the list of its `td` texts). -/
inductive FetchPage where
  | exn : FetchPage
  | ok (status : Nat) (rows : List (List String)) : FetchPage
deriving DecidableEq

/-- `BLANK_LIMIT = 500` of nbtc_scraper.py. -/
def BLANK_LIMIT : Nat := 500

/-- `TARGET_TYPE` of nbtc_scraper.py. -/
def TARGET_TYPE : String := "Cellular Mobile (GSM/WCDMA/LTE/NR)"

/-- `fetch` of nbtc_scraper.py.  The whole body sits in a `try/except`
returning `None`, so a raised exception, a non-200 status, a page without
table rows, a first row with fewer than four cells (IndexError, caught by
the bare `except`), and a first cell differing from `TARGET_TYPE` all
classify as `None`; a target-category row yields the record. -/
def fetch (id_ : Nat) : FetchPage → Option Device
  | FetchPage.exn => none
  | FetchPage.ok status rows =>
    if status ≠ 200 then none
    else
      match rows with
      | [] => none
      | row :: _ =>
        match row with
        | ttype :: brand :: model :: cert :: _ =>
          if ttype ≠ TARGET_TYPE then none
          else some { id := id_, brand := brand, model := model, cert := cert }
        | _ => none

/-- Mutable state of nbtc_scraper.py's `main`: the cursor `last`, the
consecutive-blank counter `blanks`, the collected `new_devices`, and the
`probed` instrumentation trace (most recent first). -/
structure StateB where
  last : Nat
  blanks : Nat
  new_devices : List Device
  probed : List Nat
deriving DecidableEq

/-- One iteration of the `while` body of nbtc_scraper.py's `main`:
`last += 1; dev = fetch(last)`; on a device, reset `blanks` and collect
it; otherwise increment `blanks`. -/
def stepB (w : Nat → FetchPage) (s : StateB) : StateB :=
  let last' := s.last + 1
  match fetch last' (w last') with
  | some dev => { last := last', blanks := 0,
                  new_devices := s.new_devices ++ [dev],
                  probed := last' :: s.probed }
  | none => { last := last', blanks := s.blanks + 1,
              new_devices := s.new_devices,
              probed := last' :: s.probed }

/-- The `while blanks < BLANK_LIMIT` loop of nbtc_scraper.py, with fuel:
`none` means the fuel was exhausted while the loop condition still held
(after performing exactly `fuel` further probes); `some s` means the loop
exited with final state `s`.  The source loop has no probe ceiling of its
own — its only exit is the blank-run condition. -/
def loopB (w : Nat → FetchPage) (fuel : Nat) (s : StateB) : Option StateB :=
  Nat.rec (motive := fun _ => StateB → Option StateB)
    (fun s => if s.blanks < BLANK_LIMIT then none else some s)
    (fun _ ih s => if s.blanks < BLANK_LIMIT then ih (stepB w s) else some s)
    fuel s

/-- The state of nbtc_scraper.py's `main` just before the loop:
`last = load_state()`, `blanks = 0`, `new_devices = []`. -/
def initB (start : Nat) : StateB :=
  { last := start, blanks := 0, new_devices := [], probed := [] }

/-- One full run of nbtc_scraper.py's `main` from a loaded cursor. -/
def runB (w : Nat → FetchPage) (fuel : Nat) (start : Nat) : Option StateB :=
  loopB w fuel (initB start)

/-- The value `save_state(last)` persists when the loop terminates. -/
def savedLastB : Option StateB → Option Nat :=
  Option.map StateB.last

/-- The `new_devices` list a terminated run reports. -/
def foundB : Option StateB → Option (List Device) :=
  Option.map StateB.new_devices

/-- The exit block of nbtc_scraper.py: `sys.exit(1)` when `new_devices`
is nonempty, falling off `main` (exit 0) otherwise. -/
def exitB (s : StateB) : Nat :=
  if s.new_devices ≠ [] then 1 else 0

/-! ### Concrete probe worlds used in counterexamples and witnesses -/

/-- Variant A world: every page carries the "Whoops" end-of-data marker. -/
def blankA : Nat → HttpResult := fun _ => HttpResult.ok 200 true none none

/-- Variant A world: every request raises (e.g. a timeout). -/
def exnA : Nat → HttpResult := fun _ => HttpResult.exn

/-- Variant A world: every page has a Thai `h2` heading, so every probe
yields a device name. -/
def allNamesA : Nat → HttpResult :=
  fun _ => HttpResult.ok 200 false (some "ก") none

/-- Variant B world: every page is a 404, so no identifier exists. -/
def emptyW : Nat → FetchPage := fun _ => FetchPage.ok 404 []

/-- Variant B world: every page carries a record of the target category. -/
def allMatchB : Nat → FetchPage :=
  fun _ => FetchPage.ok 200 [[TARGET_TYPE, "brandX", "modelX", "certX"]]

/-- Variant B world: every page carries a record whose category differs
from the target category. -/
def wrongCatW : Nat → FetchPage :=
  fun _ => FetchPage.ok 200 [["Radiocommunication", "b", "m", "c"]]

/-- Variant A world: identifier 0 carries a Thai heading, every later page
carries the "Whoops" marker. -/
def w10 : Nat → HttpResult :=
  fun id_ => if id_ = 0 then HttpResult.ok 200 false (some "ก") none
             else HttpResult.ok 200 true none none


/-! ### Unfolding equations for the fuel-indexed loops -/

theorem loopA_zero (w : Nat → HttpResult) (off : Nat) (s : StateA) :
    loopA w off 0 s = Except.ok s := rfl

theorem loopA_succ (w : Nat → HttpResult) (off fuel : Nat) (s : StateA) :
    loopA w off (fuel+1) s =
      match get_device_name (w (s.current + off)) with
      | Except.error _ =>
        Except.error { s with probed := (s.current + off) :: s.probed }
      | Except.ok none =>
        Except.ok { s with probed := (s.current + off) :: s.probed,
                           current := s.current + off }
      | Except.ok (some name) =>
        loopA w (off+1) fuel
          { (if name ∈ s.known
             then { s with probed := (s.current + off) :: s.probed }
             else { s with probed := (s.current + off) :: s.probed,
                           new_devices := s.new_devices ++ [name],
                           known := name :: s.known })
            with current := s.current + off + 1 } := rfl

theorem loopB_zero (w : Nat → FetchPage) (s : StateB) :
    loopB w 0 s = if s.blanks < BLANK_LIMIT then none else some s := rfl

theorem loopB_succ (w : Nat → FetchPage) (fuel : Nat) (s : StateB) :
    loopB w (fuel+1) s =
      if s.blanks < BLANK_LIMIT then loopB w fuel (stepB w s) else some s := rfl

theorem stepB_of_none (w : Nat → FetchPage) (s : StateB)
    (h : fetch (s.last + 1) (w (s.last + 1)) = none) :
    stepB w s = { last := s.last + 1, blanks := s.blanks + 1,
                  new_devices := s.new_devices,
                  probed := (s.last + 1) :: s.probed } := by
  simp [stepB, h]

theorem stepB_of_some (w : Nat → FetchPage) (s : StateB) (dev : Device)
    (h : fetch (s.last + 1) (w (s.last + 1)) = some dev) :
    stepB w s = { last := s.last + 1, blanks := 0,
                  new_devices := s.new_devices ++ [dev],
                  probed := (s.last + 1) :: s.probed } := by
  simp [stepB, h]

/-! ### Helper lemmas about the state.json loop -/

theorem loopB_probed_suffix (w : Nat → FetchPage) :
    ∀ (fuel : Nat) (s s' : StateB), loopB w fuel s = some s' →
      ∃ t, s'.probed = t ++ s.probed := by
  intro fuel
  induction fuel with
  | zero =>
    intro s s' h
    rw [loopB_zero] at h
    by_cases hb : s.blanks < BLANK_LIMIT
    · simp [hb] at h
    · simp [hb] at h
      exact ⟨[], by simp [← h]⟩
  | succ fuel ih =>
    intro s s' h
    rw [loopB_succ] at h
    by_cases hb : s.blanks < BLANK_LIMIT
    · rw [if_pos hb] at h
      obtain ⟨t, ht⟩ := ih (stepB w s) s' h
      have hstep : (stepB w s).probed = (s.last + 1) :: s.probed := by
        cases hf : fetch (s.last + 1) (w (s.last + 1)) with
        | none => rw [stepB_of_none w s hf]
        | some dev => rw [stepB_of_some w s dev hf]
      refine ⟨t ++ [s.last + 1], ?_⟩
      rw [ht, hstep]
      simp
    · rw [if_neg hb] at h
      exact ⟨[], by simp [← Option.some_inj.mp h]⟩

theorem loopB_last_mono (w : Nat → FetchPage) :
    ∀ (fuel : Nat) (s s' : StateB), loopB w fuel s = some s' →
      s.last ≤ s'.last := by
  intro fuel
  induction fuel with
  | zero =>
    intro s s' h
    rw [loopB_zero] at h
    by_cases hb : s.blanks < BLANK_LIMIT
    · simp [hb] at h
    · simp [hb] at h
      rw [← h]
  | succ fuel ih =>
    intro s s' h
    rw [loopB_succ] at h
    by_cases hb : s.blanks < BLANK_LIMIT
    · rw [if_pos hb] at h
      have h1 := ih (stepB w s) s' h
      have hstep : (stepB w s).last = s.last + 1 := by
        cases hf : fetch (s.last + 1) (w (s.last + 1)) with
        | none => rw [stepB_of_none w s hf]
        | some dev => rw [stepB_of_some w s dev hf]
      omega
    · rw [if_neg hb] at h
      rw [← Option.some_inj.mp h]

theorem loopB_head (w : Nat → FetchPage) :
    ∀ (fuel : Nat) (s s' : StateB), loopB w fuel s = some s' →
      s.probed.head? = some s.last →
      s'.probed.head? = some s'.last := by
  intro fuel
  induction fuel with
  | zero =>
    intro s s' h hl
    rw [loopB_zero] at h
    by_cases hb : s.blanks < BLANK_LIMIT
    · simp [hb] at h
    · simp [hb] at h
      rw [← h]; exact hl
  | succ fuel ih =>
    intro s s' h hl
    rw [loopB_succ] at h
    by_cases hb : s.blanks < BLANK_LIMIT
    · rw [if_pos hb] at h
      refine ih (stepB w s) s' h ?_
      cases hf : fetch (s.last + 1) (w (s.last + 1)) with
      | none => rw [stepB_of_none w s hf]; simp
      | some dev => rw [stepB_of_some w s dev hf]; simp
    · rw [if_neg hb] at h
      rw [← Option.some_inj.mp h]; exact hl

theorem loopB_count (w : Nat → FetchPage) (start : Nat) :
    ∀ (fuel : Nat) (s s' : StateB), loopB w fuel s = some s' →
      s.last = start + s.probed.length →
      s.blanks ≤ s.probed.length →
      s'.last = start + s'.probed.length ∧
        BLANK_LIMIT ≤ s'.blanks ∧ s'.blanks ≤ s'.probed.length := by
  intro fuel
  induction fuel with
  | zero =>
    intro s s' h h1 h2
    rw [loopB_zero] at h
    by_cases hb : s.blanks < BLANK_LIMIT
    · simp [hb] at h
    · simp [hb] at h
      rw [← h]
      exact ⟨h1, Nat.le_of_not_lt hb, h2⟩
  | succ fuel ih =>
    intro s s' h h1 h2
    rw [loopB_succ] at h
    by_cases hb : s.blanks < BLANK_LIMIT
    · rw [if_pos hb] at h
      cases hf : fetch (s.last + 1) (w (s.last + 1)) with
      | none =>
        rw [stepB_of_none w s hf] at h
        refine ih _ s' h ?_ ?_
        · simp; omega
        · simp; omega
      | some dev =>
        rw [stepB_of_some w s dev hf] at h
        refine ih _ s' h ?_ ?_
        · simp; omega
        · simp
    · rw [if_neg hb] at h
      rw [← Option.some_inj.mp h]
      exact ⟨h1, Nat.le_of_not_lt hb, h2⟩

/-- Closed form of a run over a range where no identifier above the cursor
exists: each probe is blank, so the loop performs exactly the missing
`k = BLANK_LIMIT - blanks` probes at consecutive identifiers and stops. -/
theorem loopB_blank_exact (w : Nat → FetchPage) :
    ∀ (k : Nat) (s : StateB),
      (∀ id_ : Nat, s.last < id_ → fetch id_ (w id_) = none) →
      s.blanks + k = BLANK_LIMIT →
      loopB w k s =
        some { last := s.last + k, blanks := BLANK_LIMIT,
               new_devices := s.new_devices,
               probed := (List.range k).map (fun i => s.last + k - i) ++ s.probed } := by
  intro k
  induction k with
  | zero =>
    intro s hw hk
    rw [loopB_zero, if_neg (by omega)]
    simp at hk
    cases s
    simp_all
  | succ k ih =>
    intro s hw hk
    rw [loopB_succ, if_pos (by omega)]
    have hf : fetch (s.last + 1) (w (s.last + 1)) = none := hw _ (by omega)
    rw [stepB_of_none w s hf]
    rw [ih { last := s.last + 1, blanks := s.blanks + 1,
             new_devices := s.new_devices, probed := (s.last + 1) :: s.probed }
          (by intro id_ hid; exact hw id_ (by simp at hid; omega))
          (by simp; omega)]
    congr 1
    simp only [StateB.mk.injEq]
    refine ⟨by omega, trivial, trivial, ?_⟩
    rw [List.range_succ]
    simp only [List.map_append, List.map_cons, List.map_nil, List.append_assoc]
    have he : s.last + (k + 1) - k = s.last + 1 := by omega
    rw [he]
    simp only [List.singleton_append]
    congr 1
    refine List.map_congr_left ?_
    intro a ha
    simp at ha
    omega

theorem fetch_allMatch (id_ : Nat) :
    fetch id_ (allMatchB id_) =
      some { id := id_, brand := "brandX", model := "modelX", cert := "certX" } := by
  simp [fetch, allMatchB, TARGET_TYPE]

/-- Against a source where every identifier carries a target-category
record, the blank counter is reset on every iteration, so the
`while blanks < BLANK_LIMIT` loop never exits: whatever the fuel, it is
still running when the fuel runs out. -/
theorem loopB_allMatch :
    ∀ (fuel : Nat) (s : StateB), s.blanks < BLANK_LIMIT →
      loopB allMatchB fuel s = none := by
  intro fuel
  induction fuel with
  | zero =>
    intro s hb
    rw [loopB_zero, if_pos hb]
  | succ fuel ih =>
    intro s hb
    rw [loopB_succ, if_pos hb]
    rw [stepB_of_some allMatchB s _ (fetch_allMatch (s.last + 1))]
    exact ih _ (by simp [BLANK_LIMIT])

/-! ### Helper lemmas about the .last_id loop -/

theorem loopA_succ_error (w : Nat → HttpResult) (off fuel : Nat) (s : StateA)
    (e : Unit) (hg : get_device_name (w (s.current + off)) = Except.error e) :
    loopA w off (fuel+1) s =
      Except.error { s with probed := (s.current + off) :: s.probed } := by
  rw [loopA_succ, hg]

theorem loopA_succ_break (w : Nat → HttpResult) (off fuel : Nat) (s : StateA)
    (hg : get_device_name (w (s.current + off)) = Except.ok none) :
    loopA w off (fuel+1) s =
      Except.ok { s with probed := (s.current + off) :: s.probed,
                         current := s.current + off } := by
  rw [loopA_succ, hg]

theorem loopA_succ_known (w : Nat → HttpResult) (off fuel : Nat) (s : StateA)
    (name : String) (hg : get_device_name (w (s.current + off)) = Except.ok (some name))
    (hk : name ∈ s.known) :
    loopA w off (fuel+1) s =
      loopA w (off+1) fuel
        { current := s.current + off + 1, known := s.known,
          new_devices := s.new_devices,
          probed := (s.current + off) :: s.probed } := by
  rw [loopA_succ, hg]
  simp [hk]

theorem loopA_succ_new (w : Nat → HttpResult) (off fuel : Nat) (s : StateA)
    (name : String) (hg : get_device_name (w (s.current + off)) = Except.ok (some name))
    (hk : name ∉ s.known) :
    loopA w off (fuel+1) s =
      loopA w (off+1) fuel
        { current := s.current + off + 1, known := name :: s.known,
          new_devices := s.new_devices ++ [name],
          probed := (s.current + off) :: s.probed } := by
  rw [loopA_succ, hg]
  simp [hk]

theorem loopA_probed_suffix (w : Nat → HttpResult) :
    ∀ (fuel off : Nat) (s : StateA),
      ∃ t, probedOfA (loopA w off fuel s) = t ++ s.probed := by
  intro fuel
  induction fuel with
  | zero =>
    intro off s
    exact ⟨[], by simp [loopA_zero, probedOfA]⟩
  | succ fuel ih =>
    intro off s
    cases hg : get_device_name (w (s.current + off)) with
    | error e =>
      rw [loopA_succ_error w off fuel s e hg]
      exact ⟨[s.current + off], by simp [probedOfA]⟩
    | ok r =>
      cases r with
      | none =>
        rw [loopA_succ_break w off fuel s hg]
        exact ⟨[s.current + off], by simp [probedOfA]⟩
      | some name =>
        by_cases hk : name ∈ s.known
        · rw [loopA_succ_known w off fuel s name hg hk]
          obtain ⟨t, ht⟩ := ih (off+1)
            { current := s.current + off + 1, known := s.known,
              new_devices := s.new_devices, probed := (s.current + off) :: s.probed }
          exact ⟨t ++ [s.current + off], by rw [ht]; simp⟩
        · rw [loopA_succ_new w off fuel s name hg hk]
          obtain ⟨t, ht⟩ := ih (off+1)
            { current := s.current + off + 1, known := name :: s.known,
              new_devices := s.new_devices ++ [name],
              probed := (s.current + off) :: s.probed }
          exact ⟨t ++ [s.current + off], by rw [ht]; simp⟩

theorem loopA_probed_length (w : Nat → HttpResult) :
    ∀ (fuel off : Nat) (s : StateA),
      (probedOfA (loopA w off fuel s)).length ≤ s.probed.length + fuel := by
  intro fuel
  induction fuel with
  | zero =>
    intro off s
    simp [loopA_zero, probedOfA]
  | succ fuel ih =>
    intro off s
    cases hg : get_device_name (w (s.current + off)) with
    | error e =>
      rw [loopA_succ_error w off fuel s e hg]
      simp [probedOfA]
    | ok r =>
      cases r with
      | none =>
        rw [loopA_succ_break w off fuel s hg]
        simp [probedOfA]
      | some name =>
        by_cases hk : name ∈ s.known
        · rw [loopA_succ_known w off fuel s name hg hk]
          have h := ih (off+1)
            { current := s.current + off + 1, known := s.known,
              new_devices := s.new_devices, probed := (s.current + off) :: s.probed }
          simp at h ⊢
          omega
        · rw [loopA_succ_new w off fuel s name hg hk]
          have h := ih (off+1)
            { current := s.current + off + 1, known := name :: s.known,
              new_devices := s.new_devices ++ [name],
              probed := (s.current + off) :: s.probed }
          simp at h ⊢
          omega

theorem loopA_current_mono (w : Nat → HttpResult) :
    ∀ (fuel off : Nat) (s s' : StateA), loopA w off fuel s = Except.ok s' →
      s.current ≤ s'.current := by
  intro fuel
  induction fuel with
  | zero =>
    intro off s s' h
    rw [loopA_zero] at h
    cases h
    exact Nat.le_refl _
  | succ fuel ih =>
    intro off s s' h
    cases hg : get_device_name (w (s.current + off)) with
    | error e =>
      rw [loopA_succ_error w off fuel s e hg] at h
      cases h
    | ok r =>
      cases r with
      | none =>
        rw [loopA_succ_break w off fuel s hg] at h
        cases h
        simp
      | some name =>
        by_cases hk : name ∈ s.known
        · rw [loopA_succ_known w off fuel s name hg hk] at h
          have := ih (off+1) _ s' h
          simp at this
          omega
        · rw [loopA_succ_new w off fuel s name hg hk] at h
          have := ih (off+1) _ s' h
          simp at this
          omega

theorem head?_mem {α : Type} {l : List α} {x : α} (h : l.head? = some x) :
    x ∈ l := by
  cases l with
  | nil => cases h
  | cons a t =>
    simp at h
    simp [h]

/-- Cursor/trace relation for the .last_id loop: a normally finished run
leaves `current` at the last probed identifier when it stopped at a blank
probe, and at the last probed identifier plus one when the full iteration
range was exhausted with every probe yielding a name. -/
theorem loopA_cursor (w : Nat → HttpResult) :
    ∀ (fuel off : Nat) (s s' : StateA),
      loopA w off fuel s = Except.ok s' →
      (s.probed = [] ∨ ∃ l, s.probed.head? = some l ∧ s.current = l + 1) →
      ((∃ l, s'.probed.head? = some l ∧
          (s'.current = l ∨
           (s'.current = l + 1 ∧ s'.probed.length = s.probed.length + fuel)))
       ∨ (s' = s ∧ s.probed = [] ∧ fuel = 0)) := by
  intro fuel
  induction fuel with
  | zero =>
    intro off s s' h hs
    rw [loopA_zero] at h
    cases h
    cases hs with
    | inl hemp => exact Or.inr ⟨rfl, hemp, rfl⟩
    | inr hl =>
      obtain ⟨l, hl, hc⟩ := hl
      exact Or.inl ⟨l, hl, Or.inr ⟨hc, by omega⟩⟩
  | succ fuel ih =>
    intro off s s' h hs
    cases hg : get_device_name (w (s.current + off)) with
    | error e =>
      rw [loopA_succ_error w off fuel s e hg] at h
      cases h
    | ok r =>
      cases r with
      | none =>
        rw [loopA_succ_break w off fuel s hg] at h
        cases h
        refine Or.inl ⟨s.current + off, ?_, Or.inl rfl⟩
        simp
      | some name =>
        by_cases hk : name ∈ s.known
        · rw [loopA_succ_known w off fuel s name hg hk] at h
          rcases ih (off+1) _ s' h
              (Or.inr ⟨s.current + off, by simp, rfl⟩) with
            ⟨l, hl, hc | ⟨hc, hlen⟩⟩ | ⟨_, hemp, _⟩
          · exact Or.inl ⟨l, hl, Or.inl hc⟩
          · refine Or.inl ⟨l, hl, Or.inr ⟨hc, ?_⟩⟩
            simp at hlen
            omega
          · simp at hemp
        · rw [loopA_succ_new w off fuel s name hg hk] at h
          rcases ih (off+1) _ s' h
              (Or.inr ⟨s.current + off, by simp, rfl⟩) with
            ⟨l, hl, hc | ⟨hc, hlen⟩⟩ | ⟨_, hemp, _⟩
          · exact Or.inl ⟨l, hl, Or.inl hc⟩
          · refine Or.inl ⟨l, hl, Or.inr ⟨hc, ?_⟩⟩
            simp at hlen
            omega
          · simp at hemp

/-- Dedup invariant of the .last_id loop: every collected name is recorded
in the known set, the collected list is duplicate-free, and names already
known when the run started are never collected again. -/
theorem loopA_inv (w : Nat → HttpResult) (k0 : List String) :
    ∀ (fuel off : Nat) (s s' : StateA), loopA w off fuel s = Except.ok s' →
      (∀ x, x ∈ s.new_devices → x ∈ s.known) →
      s.new_devices.Nodup →
      (∀ x, x ∈ k0 → x ∈ s.known ∧ x ∉ s.new_devices) →
      ((∀ x, x ∈ s'.new_devices → x ∈ s'.known) ∧ s'.new_devices.Nodup ∧
        (∀ x, x ∈ k0 → x ∈ s'.known ∧ x ∉ s'.new_devices)) := by
  intro fuel
  induction fuel with
  | zero =>
    intro off s s' h h1 h2 h3
    rw [loopA_zero] at h
    cases h
    exact ⟨h1, h2, h3⟩
  | succ fuel ih =>
    intro off s s' h h1 h2 h3
    cases hg : get_device_name (w (s.current + off)) with
    | error e =>
      rw [loopA_succ_error w off fuel s e hg] at h
      cases h
    | ok r =>
      cases r with
      | none =>
        rw [loopA_succ_break w off fuel s hg] at h
        cases h
        exact ⟨h1, h2, h3⟩
      | some name =>
        by_cases hk : name ∈ s.known
        · rw [loopA_succ_known w off fuel s name hg hk] at h
          exact ih (off+1) _ s' h h1 h2 h3
        · rw [loopA_succ_new w off fuel s name hg hk] at h
          refine ih (off+1) _ s' h ?_ ?_ ?_
          · intro x hx
            simp at hx
            cases hx with
            | inl hx => exact List.mem_cons_of_mem _ (h1 x hx)
            | inr hx => simp [hx]
          · have hnd : name ∉ s.new_devices := fun hc => hk (h1 name hc)
            simp [List.nodup_append, h2, hnd]
          · intro x hx
            obtain ⟨hxk, hxn⟩ := h3 x hx
            refine ⟨List.mem_cons_of_mem _ hxk, ?_⟩
            simp [hxn]
            intro he
            rw [he] at hxk
            exact hk hxk

/-! ### Claims -/

/-- Claim C1, counterexample.  A probe whose record exists but carries a
non-target category ("Radiocommunication") does not reset the
consecutive-blank counter to 0: starting from `blanks = 3`, one such probe
leaves `blanks = 4`.  `fetch` returns `None` for the wrong category, and
the scan body counts every `None` as a blank. -/
theorem c1_counterexample :
    (stepB wrongCatW { last := 10, blanks := 3, new_devices := [],
                       probed := [] }).blanks = 4 ∧
    ¬ (stepB wrongCatW { last := 10, blanks := 3, new_devices := [],
                         probed := [] }).blanks = 0 := by
  decide

/-- Claim C1, amended.  When a probe returns a live record whose category
label differs from `TARGET_TYPE`, the state.json scanner classifies the
probe as blank: the consecutive-blank counter is incremented (not reset),
no record is collected, and the probe therefore contributes to blank-run
termination. -/
theorem c1_wrong_category_increments_blanks :
    ∀ (w : Nat → FetchPage) (s : StateB) (t b m c : String)
      (rest : List String) (more : List (List String)),
      t ≠ TARGET_TYPE →
      w (s.last + 1) = FetchPage.ok 200 ((t :: b :: m :: c :: rest) :: more) →
      (stepB w s).blanks = s.blanks + 1 ∧
        (stepB w s).new_devices = s.new_devices ∧
        (stepB w s).last = s.last + 1 := by
  intro w s t b m c rest more ht hw
  have hf : fetch (s.last + 1) (w (s.last + 1)) = none := by
    rw [hw]
    simp [fetch, ht]
  rw [stepB_of_none w s hf]
  exact ⟨rfl, rfl, rfl⟩

/-- Claim C1, witness for the amended statement at a concrete input. -/
theorem c1_witness :
    (stepB wrongCatW { last := 7, blanks := 0, new_devices := [],
                       probed := [] }).blanks = 0 + 1 ∧
    (stepB wrongCatW { last := 7, blanks := 0, new_devices := [],
                       probed := [] }).new_devices = [] ∧
    (stepB wrongCatW { last := 7, blanks := 0, new_devices := [],
                       probed := [] }).last = 7 + 1 :=
  c1_wrong_category_increments_blanks wrongCatW
    { last := 7, blanks := 0, new_devices := [], probed := [] }
    "Radiocommunication" "b" "m" "c" [] [] (by decide) rfl

/-- Claim C2, counterexample.  The state.json scan loop has no probe
ceiling: against a source where every identifier carries a target-category
record, after 501 probes (more than any observed `maxProbes` value, and
more than `BLANK_LIMIT = 500`) the loop is still running. -/
theorem c2_counterexample : runB allMatchB 501 1628277 = none :=
  loopB_allMatch 501 (initB 1628277) (by decide)

/-- Claim C2, amended.  The .last_id variant probes at most
`MAX_PAGES = 500` identifiers per run and always terminates; the
state.json variant has no probe ceiling of its own: on an all-match probe
sequence its loop never exits, whatever fuel it is given. -/
theorem c2_probe_bound :
    (∀ (w : Nat → HttpResult) (known0 : List String) (start : Nat),
        (probedOfA (runA w known0 start)).length ≤ MAX_PAGES) ∧
    (∀ (fuel : Nat) (s : StateB), s.blanks < BLANK_LIMIT →
        loopB allMatchB fuel s = none) := by
  constructor
  · intro w k0 start
    have h := loopA_probed_length w MAX_PAGES 0
      { current := start, known := k0, new_devices := [], probed := [] }
    simpa [runA] using h
  · exact loopB_allMatch

/-- Claim C2, witness for the amended statement at concrete inputs. -/
theorem c2_witness :
    (probedOfA (runA blankA [] 7)).length ≤ MAX_PAGES ∧
    loopB allMatchB 0 (initB 5) = none :=
  ⟨c2_probe_bound.1 blankA [] 7, c2_probe_bound.2 0 (initB 5) (by decide)⟩

/-- Claim C3, counterexample.  In the .last_id variant the `requests.get`
call sits outside any try/except: a raised request exception (timeout,
connection error) at identifier 100 propagates out of
`get_device_name` and aborts the whole scan as a fatal error instead of
being classified as a blank probe. -/
theorem c3_counterexample :
    get_device_name HttpResult.exn = Except.error () ∧
    runA exnA [] 100 = Except.error
      { current := 100, known := [], new_devices := [], probed := [100] } :=
  ⟨rfl, rfl⟩

/-- Claim C3, amended.  The state.json variant's `fetch` recovers every
failure locally as `None` (raised exception, non-200 status, page without
table rows); the .last_id variant's `get_device_name` treats a non-200
status as no-match but lets a raised request exception propagate to the
caller. -/
theorem c3_failure_handling :
    (∀ id_ : Nat, fetch id_ FetchPage.exn = none) ∧
    (∀ (id_ st : Nat) (rows : List (List String)), st ≠ 200 →
        fetch id_ (FetchPage.ok st rows) = none) ∧
    (∀ id_ : Nat, fetch id_ (FetchPage.ok 200 []) = none) ∧
    (get_device_name HttpResult.exn = Except.error ()) ∧
    (∀ (st : Nat) (wp : Bool) (h2 h3 : Option String), st ≠ 200 →
        get_device_name (HttpResult.ok st wp h2 h3) = Except.ok none) := by
  refine ⟨fun id_ => rfl, ?_, fun id_ => rfl, rfl, ?_⟩
  · intro id_ st rows hst
    simp [fetch, hst]
  · intro st wp h2 h3 hst
    simp [get_device_name, hst]

/-- Claim C3, witness for the amended statement at concrete inputs. -/
theorem c3_witness :
    fetch 9 FetchPage.exn = none ∧
    fetch 9 (FetchPage.ok 503 [["x"]]) = none ∧
    get_device_name (HttpResult.ok 503 false none none) = Except.ok none :=
  ⟨c3_failure_handling.1 9,
   c3_failure_handling.2.1 9 503 [["x"]] (by decide),
   c3_failure_handling.2.2.2.2 503 false none none (by decide)⟩

/-- For the all-names source every probe is classified as a known name
after the first, so the .last_id loop never breaks: its state keeps the
invariant that `current` is one past the most recent probe. -/
theorem loopA_allKnown :
    ∀ (fuel off : Nat) (s : StateA), "ก" ∈ s.known →
      s.probed.head? = some (s.current - 1) → 1 ≤ s.current →
      ∃ s', loopA allNamesA off fuel s = Except.ok s' ∧
        s'.probed.head? = some (s'.current - 1) ∧ 1 ≤ s'.current ∧
        s'.probed.length = s.probed.length + fuel := by
  intro fuel
  induction fuel with
  | zero =>
    intro off s hk hh hp
    exact ⟨s, loopA_zero _ _ _, hh, hp, by omega⟩
  | succ fuel ih =>
    intro off s hk hh hp
    rw [loopA_succ_known allNamesA off fuel s "ก" rfl hk]
    obtain ⟨s', hs', hh', hp', hlen⟩ := ih (off+1)
      { current := s.current + off + 1, known := s.known,
        new_devices := s.new_devices, probed := (s.current + off) :: s.probed }
      (by simpa using hk) (by simp) (by simp)
    refine ⟨s', hs', hh', hp', ?_⟩
    simp at hlen
    omega

set_option maxRecDepth 100000 in
/-- Claim C4, counterexample.  In the .last_id variant, a run in which
every probe yields a name completes all 500 iterations and persists
`current = 125250` (starting from 0) although the last identifier actually
probed is 125249: the persisted cursor is one beyond the last probe.
(`probed` lists probes most recent first, so `head?` is the last probe.) -/
theorem c4_counterexample :
    savedA (runA allNamesA [] 0) = some 125250 ∧
    (probedOfA (runA allNamesA [] 0)).head? = some 125249 ∧
    (some 125250 : Option Nat) ≠ some 125249 := by
  have h0 : savedA (runA allNamesA [] 0) = some 125250 := rfl
  have h1 : runA allNamesA [] 0 =
      loopA allNamesA 1 499
        { current := 0 + 0 + 1, known := "ก" :: [],
          new_devices := [] ++ ["ก"], probed := (0 + 0) :: [] } := by
    show loopA allNamesA 0 (499 + 1)
        { current := 0, known := [], new_devices := [], probed := [] } = _
    exact loopA_succ_new allNamesA 0 499 _ "ก" rfl (by simp)
  obtain ⟨s', hs', hh, hp, hlen⟩ := loopA_allKnown 499 1
      { current := 0 + 0 + 1, known := "ก" :: [],
        new_devices := [] ++ ["ก"], probed := (0 + 0) :: [] }
      (by simp) (by simp) (by simp)
  have hrun : runA allNamesA [] 0 = Except.ok s' := h1.trans hs'
  have hcur : s'.current = 125250 := by
    have h2 : savedA (runA allNamesA [] 0) = some s'.current := by
      rw [hrun]
      rfl
    rw [h0] at h2
    exact (Option.some_inj.mp h2).symm
  refine ⟨h0, ?_, by decide⟩
  have h3 : probedOfA (runA allNamesA [] 0) = s'.probed := by
    rw [hrun]
    rfl
  rw [h3, hh, hcur]

/-- Claim C4, amended.  The state.json variant always persists exactly the
last identifier probed.  The .last_id variant persists the last probed
identifier when the run stops at a blank probe, but persists the last
probed identifier plus one when all `MAX_PAGES` iterations complete with
every probe yielding a name.  (`probed` lists probes most recent first,
so `head?` is the last probe of the run.) -/
theorem c4_cursor_vs_last_probe :
    (∀ (w : Nat → HttpResult) (known0 : List String) (start : Nat) (s : StateA),
        runA w known0 start = Except.ok s →
        ∃ l, s.probed.head? = some l ∧
          (s.current = l ∨ (s.current = l + 1 ∧ s.probed.length = MAX_PAGES))) ∧
    (∀ (w : Nat → FetchPage) (fuel start : Nat) (s : StateB),
        loopB w fuel (initB start) = some s →
        s.probed.head? = some s.last) := by
  constructor
  · intro w k0 start s h
    rcases loopA_cursor w MAX_PAGES 0 _ s h (Or.inl rfl) with
      ⟨l, hl, hc⟩ | ⟨_, _, hfuel⟩
    · refine ⟨l, hl, ?_⟩
      simpa using hc
    · exact absurd hfuel (by decide)
  · intro w fuel start s h
    cases fuel with
    | zero =>
      rw [loopB_zero] at h
      simp [initB, BLANK_LIMIT] at h
    | succ fuel =>
      rw [loopB_succ, if_pos (by norm_num [initB, BLANK_LIMIT])] at h
      refine loopB_head w fuel _ s h ?_
      cases hf : fetch ((initB start).last + 1) (w ((initB start).last + 1)) with
      | none =>
        rw [stepB_of_none w _ hf]
        simp
      | some dev =>
        rw [stepB_of_some w _ dev hf]
        simp

set_option maxRecDepth 100000 in
/-- Claim C4, witness for the amended statement at concrete inputs. -/
theorem c4_witness :
    (∃ l, ([9] : List Nat).head? = some l ∧
        ((9 : Nat) = l ∨ ((9 : Nat) = l + 1 ∧ ([9] : List Nat).length = MAX_PAGES))) ∧
    ((List.range BLANK_LIMIT).map (fun i => 3 + BLANK_LIMIT - i) ++
        ([] : List Nat)).head? = some (3 + BLANK_LIMIT) :=
  ⟨c4_cursor_vs_last_probe.1 blankA [] 9
      { current := 9, known := [], new_devices := [], probed := [9] } rfl,
   c4_cursor_vs_last_probe.2 emptyW BLANK_LIMIT 3 _
      (loopB_blank_exact emptyW BLANK_LIMIT (initB 3) (fun _ _ => rfl) rfl)⟩

/-- Claim C5, counterexample.  In the .last_id variant, with a persisted
cursor of 42 the next run's first probe targets identifier 42 itself
(inclusive convention), not 43.  (`probed` lists probes most recent
first, so `getLast?` is the first probe of the run.) -/
theorem c5_counterexample :
    (probedOfA (runA blankA [] 42)).getLast? = some 42 ∧
    (probedOfA (runA blankA [] 42)).getLast? ≠ some 43 :=
  ⟨rfl, by decide⟩

/-- Claim C5, amended.  Resume convention differs between the variants:
with a persisted cursor of `N`, the state.json variant's first probe
targets `N + 1`, while the .last_id variant's first probe targets `N`
itself. -/
theorem c5_first_probe :
    (∀ (w : Nat → HttpResult) (known0 : List String) (start : Nat),
        (probedOfA (runA w known0 start)).getLast? = some start) ∧
    (∀ (w : Nat → FetchPage) (fuel start : Nat) (s : StateB),
        loopB w fuel (initB start) = some s →
        s.probed.getLast? = some (start + 1)) := by
  constructor
  · intro w k0 start
    show (probedOfA (loopA w 0 (499 + 1)
      { current := start, known := k0, new_devices := [], probed := [] })).getLast? =
        some start
    cases hg : get_device_name (w (start + 0)) with
    | error e =>
      rw [loopA_succ_error w 0 499 _ e hg]
      simp [probedOfA]
    | ok r =>
      cases r with
      | none =>
        rw [loopA_succ_break w 0 499 _ hg]
        simp [probedOfA]
      | some name =>
        by_cases hk : name ∈ (k0 : List String)
        · rw [loopA_succ_known w 0 499 _ name hg hk]
          obtain ⟨t, ht⟩ := loopA_probed_suffix w 499 1
            { current := start + 0 + 1, known := k0,
              new_devices := [], probed := (start + 0) :: [] }
          rw [ht]
          simp
        · rw [loopA_succ_new w 0 499 _ name hg hk]
          obtain ⟨t, ht⟩ := loopA_probed_suffix w 499 1
            { current := start + 0 + 1, known := name :: k0,
              new_devices := [] ++ [name], probed := (start + 0) :: [] }
          rw [ht]
          simp
  · intro w fuel start s h
    cases fuel with
    | zero =>
      rw [loopB_zero] at h
      simp [initB, BLANK_LIMIT] at h
    | succ fuel =>
      rw [loopB_succ, if_pos (by norm_num [initB, BLANK_LIMIT])] at h
      obtain ⟨t, ht⟩ := loopB_probed_suffix w fuel _ s h
      rw [ht]
      cases hf : fetch ((initB start).last + 1) (w ((initB start).last + 1)) with
      | none =>
        rw [stepB_of_none w _ hf]
        simp [initB]
      | some dev =>
        rw [stepB_of_some w _ dev hf]
        simp [initB]

set_option maxRecDepth 100000 in
/-- Claim C5, witness for the amended statement at concrete inputs. -/
theorem c5_witness :
    (probedOfA (runA blankA [] 3)).getLast? = some 3 ∧
    ((List.range BLANK_LIMIT).map (fun i => 11 + BLANK_LIMIT - i) ++
        ([] : List Nat)).getLast? = some (11 + 1) :=
  ⟨c5_first_probe.1 blankA [] 3,
   c5_first_probe.2 emptyW BLANK_LIMIT 11 _
     (loopB_blank_exact emptyW BLANK_LIMIT (initB 11) (fun _ _ => rfl) rfl)⟩

/-- Claim C7.  The exit code of each variant distinguishes "nothing new"
from "new record(s) found": the .last_id variant exits 0 exactly when no
new device name was collected and 77 exactly when one was; the state.json
variant exits 0 exactly when nothing was collected and 1 exactly when
something was. -/
theorem c7_exit_code_contract :
    (∀ s : StateA, (exitA s = 0 ↔ s.new_devices = []) ∧
        (exitA s = 77 ↔ s.new_devices ≠ [])) ∧
    (∀ s : StateB, (exitB s = 0 ↔ s.new_devices = []) ∧
        (exitB s = 1 ↔ s.new_devices ≠ [])) := by
  constructor
  · intro s
    by_cases h : s.new_devices = [] <;> simp [exitA, h]
  · intro s
    by_cases h : s.new_devices = [] <;> simp [exitB, h]

/-- Claim C8.  Cursor monotonicity: a normally completed run of either
variant persists a cursor that is at least the value it loaded; the
cursor is never rewound. -/
theorem c8_cursor_monotone :
    (∀ (w : Nat → HttpResult) (known0 : List String) (start : Nat) (s : StateA),
        runA w known0 start = Except.ok s → start ≤ s.current) ∧
    (∀ (w : Nat → FetchPage) (fuel : Nat) (s0 s : StateB),
        loopB w fuel s0 = some s → s0.last ≤ s.last) := by
  constructor
  · intro w k0 start s h
    exact loopA_current_mono w MAX_PAGES 0 _ s h
  · intro w fuel s0 s h
    exact loopB_last_mono w fuel s0 s h

set_option maxRecDepth 100000 in
/-- Claim C8, witness at concrete inputs for both variants. -/
theorem c8_witness : (42 : Nat) ≤ 42 ∧ (7 : Nat) ≤ 7 + BLANK_LIMIT :=
  ⟨c8_cursor_monotone.1 blankA [] 42
      { current := 42, known := [], new_devices := [], probed := [42] } rfl,
   c8_cursor_monotone.2 emptyW BLANK_LIMIT (initB 7) _
      (loopB_blank_exact emptyW BLANK_LIMIT (initB 7) (fun _ _ => rfl) rfl)⟩

/-- Claim C9.  Every terminating run of the state.json variant performs at
least `BLANK_LIMIT = 500` probes (the loop can only exit after 500
consecutive blanks, each probe adds at most one blank) and persists a
cursor at least 500 above the loaded value. -/
theorem c9_minimum_advance :
    ∀ (w : Nat → FetchPage) (fuel start : Nat) (s : StateB),
      loopB w fuel (initB start) = some s →
      BLANK_LIMIT ≤ s.probed.length ∧ start + BLANK_LIMIT ≤ s.last := by
  intro w fuel start s h
  obtain ⟨h1, h2, h3⟩ := loopB_count w start fuel (initB start) s h
    (by simp [initB]) (by simp [initB])
  exact ⟨by omega, by omega⟩

set_option maxRecDepth 100000 in
/-- Claim C9, witness: a run over an empty source terminates after exactly
500 probes with the cursor advanced by exactly 500. -/
theorem c9_witness :
    BLANK_LIMIT ≤
      ((List.range BLANK_LIMIT).map (fun i => 0 + BLANK_LIMIT - i) ++
        ([] : List Nat)).length ∧
    0 + BLANK_LIMIT ≤ 0 + BLANK_LIMIT :=
  c9_minimum_advance emptyW BLANK_LIMIT 0 _
    (loopB_blank_exact emptyW BLANK_LIMIT (initB 0) (fun _ _ => rfl) rfl)

/-- Claim C6, counterexample.  Two successive state.json runs over an
unchanged, empty remote source (every page 404): the first run persists
1628777, the second finds nothing new but persists 1629277 — the cursor
advances by another 500 instead of staying at the first run's final
value. -/
theorem c6_counterexample :
    savedLastB (runB emptyW BLANK_LIMIT 1628277) = some 1628777 ∧
    foundB (runB emptyW BLANK_LIMIT 1628777) = some [] ∧
    savedLastB (runB emptyW BLANK_LIMIT 1628777) = some 1629277 ∧
    (some (1629277 : Nat) : Option Nat) ≠ some 1628777 := by
  have h1 := loopB_blank_exact emptyW BLANK_LIMIT (initB 1628277)
    (fun _ _ => rfl) rfl
  have h2 := loopB_blank_exact emptyW BLANK_LIMIT (initB 1628777)
    (fun _ _ => rfl) rfl
  refine ⟨?_, ?_, ?_, by decide⟩
  · show savedLastB (loopB emptyW BLANK_LIMIT (initB 1628277)) = some 1628777
    rw [h1]
    rfl
  · show foundB (loopB emptyW BLANK_LIMIT (initB 1628777)) = some []
    rw [h2]
    rfl
  · show savedLastB (loopB emptyW BLANK_LIMIT (initB 1628777)) = some 1629277
    rw [h2]
    rfl

/-- Claim C6, amended.  With the remote data unchanged between runs, a
second run finds nothing new in both variants, but only the .last_id
variant leaves the cursor unchanged: if the first run stopped at a blank
probe, its second run probes that same identifier, finds it blank again,
and persists the same cursor.  The state.json variant's second run
collects nothing when no identifier exists above the persisted cursor,
yet advances the cursor by exactly `BLANK_LIMIT`. -/
theorem c6_second_run :
    (∀ (w : Nat → HttpResult) (known0 : List String) (start : Nat) (s1 : StateA),
        runA w known0 start = Except.ok s1 →
        get_device_name (w s1.current) = Except.ok none →
        runA w s1.known s1.current =
          Except.ok { current := s1.current, known := s1.known,
                      new_devices := [], probed := [s1.current] }) ∧
    (∀ (w : Nat → FetchPage) (fuel start : Nat) (s1 : StateB),
        loopB w fuel (initB start) = some s1 →
        (∀ id_ : Nat, s1.last < id_ → fetch id_ (w id_) = none) →
        ∃ s2, loopB w BLANK_LIMIT (initB s1.last) = some s2 ∧
          s2.new_devices = [] ∧ s2.last = s1.last + BLANK_LIMIT) := by
  constructor
  · intro w k0 start s1 hrun hblank
    have hg : get_device_name (w
        (({ current := s1.current, known := s1.known, new_devices := [],
            probed := ([] : List Nat) } : StateA).current + 0)) =
        Except.ok none := by
      simpa using hblank
    show loopA w 0 (499 + 1)
        { current := s1.current, known := s1.known,
          new_devices := [], probed := [] } =
      Except.ok { current := s1.current, known := s1.known,
                  new_devices := [], probed := [s1.current] }
    rw [loopA_succ_break w 0 499 _ hg]
    simp
  · intro w fuel start s1 hrun hblank
    refine ⟨_, loopB_blank_exact w BLANK_LIMIT (initB s1.last)
        (by intro id_ hid; exact hblank id_ (by simpa using hid)) rfl, rfl, rfl⟩

/-- Claim C6, witness for the amended statement at concrete inputs. -/
theorem c6_witness :
    runA blankA [] 42 =
      Except.ok { current := 42, known := [], new_devices := [],
                  probed := [42] } ∧
    ∃ s2, loopB emptyW BLANK_LIMIT (initB (7 + BLANK_LIMIT)) = some s2 ∧
      s2.new_devices = [] ∧ s2.last = 7 + BLANK_LIMIT + BLANK_LIMIT := by
  constructor
  · exact c6_second_run.1 blankA [] 42
      { current := 42, known := [], new_devices := [], probed := [42] } rfl rfl
  · obtain ⟨s2, hs2, hnd, hlast⟩ :=
      c6_second_run.2 emptyW BLANK_LIMIT 7 _
        (loopB_blank_exact emptyW BLANK_LIMIT (initB 7) (fun _ _ => rfl) rfl)
        (fun _ _ => rfl)
    refine ⟨s2, ?_, hnd, ?_⟩
    · exact hs2
    · rw [hlast]
      rfl

/-- Claim C10.  In the .last_id variant, only the first collected name is
written to new_device.txt and sent; every collected name (first included)
is added to the persisted known set, the collected list has no
duplicates, no name of the tail is notified in that run, and any name
collected in this run is neither collected nor notified by any later run
seeded with this run's known set. -/
theorem c10_only_first_notified :
    ∀ (w : Nat → HttpResult) (known0 : List String) (start : Nat) (s : StateA),
      runA w known0 start = Except.ok s →
      (notificationA s = s.new_devices.head?) ∧
      s.new_devices.Nodup ∧
      (∀ x, x ∈ s.new_devices → x ∈ s.known) ∧
      (∀ x, x ∈ known0 → x ∉ s.new_devices) ∧
      (∀ x, x ∈ s.new_devices.tail → notificationA s ≠ some x) ∧
      (∀ (w2 : Nat → HttpResult) (start2 : Nat) (s2 : StateA),
          runA w2 s.known start2 = Except.ok s2 →
          ∀ x, x ∈ s.new_devices →
            x ∉ s2.new_devices ∧ notificationA s2 ≠ some x) := by
  intro w k0 start s h
  obtain ⟨h1, h2, h3⟩ := loopA_inv w k0 MAX_PAGES 0 _ s h
    (by intro x hx; cases hx) List.nodup_nil
    (by intro x hx; exact ⟨hx, by simp⟩)
  refine ⟨rfl, h2, h1, fun x hx => (h3 x hx).2, ?_, ?_⟩
  · intro x hx hn
    cases hl : s.new_devices with
    | nil =>
      rw [hl] at hx
      cases hx
    | cons a t =>
      rw [hl] at hx h2
      simp [notificationA, hl] at hn
      simp at hx
      rw [hn] at h2
      simp at h2
      exact h2.1 hx
  · intro w2 start2 s2 h2run x hx
    have hxk : x ∈ s.known := h1 x hx
    obtain ⟨g1, g2, g3⟩ := loopA_inv w2 s.known MAX_PAGES 0 _ s2 h2run
      (by intro y hy; cases hy) List.nodup_nil
      (by intro y hy; exact ⟨hy, by simp⟩)
    have hnot : x ∉ s2.new_devices := (g3 x hxk).2
    refine ⟨hnot, ?_⟩
    intro hn
    exact hnot (head?_mem hn)

/-- Claim C10, witness: a run that collects one name notifies exactly that
name and records it as known. -/
theorem c10_witness :
    notificationA { current := 2, known := ["ก"], new_devices := ["ก"],
                    probed := [2, 0] } = (["ก"] : List String).head? ∧
    (["ก"] : List String).Nodup := by
  have h := c10_only_first_notified w10 [] 0
    { current := 2, known := ["ก"], new_devices := ["ก"], probed := [2, 0] } rfl
  exact ⟨h.1, h.2.1⟩
